import Mathlib

/-!
Verification of the nft-marketplace backend's chain-event synchronization
engine against its specification.

The Go backend (package `service`, `repository`, `blockchain` and the
`main` event listener) is shallowly embedded here:

* the GORM-backed `listings` and `transactions` tables become Lean lists of
  records, with the SQL `UNIQUE` constraints (`listings.item_id`,
  `transactions.tx_hash`) enforced by the embedded insert operations;
* `big.Int` chain values (uint256) become `Nat`; Go's `Uint64()`
  truncation and the `int64(uint64)` cast are modelled explicitly;
* wall-clock timestamps (`time.Now()`) become an explicit `now : Nat`
  argument threaded to each operation that reads the clock;
* fallible Go functions returning `error` become `Except String`;
* the blockchain RPC (`Client.GetMarketItem`) becomes an oracle function
  `ChainState`, with `none` standing for an RPC/call failure.
-/

namespace NFTMarketplace

/-- ASCII lower-casing of one character, as hex parsing does. -/
def lowerChar (c : Char) : Char :=
  if 'A' ≤ c ∧ c ≤ 'Z' then Char.ofNat (c.toNat + 32) else c

/-- `common.HexToAddress` from go-ethereum, as used by
`ListingService.CreateListing` for the nft-contract comparison: the hex
string is stripped of an optional 0x prefix, lower-cased, and reduced to
its last 20 bytes (40 hex digits), left-padded with zeros. -/
def hexToAddress (s : String) : String :=
  let cs := match s.data with
    | '0' :: 'x' :: rest => rest
    | cs => cs
  let cs := cs.map lowerChar
  let cs :=
    if cs.length ≥ 40 then cs.drop (cs.length - 40)
    else List.replicate (40 - cs.length) '0' ++ cs
  String.mk cs

/-- Row of the `listings` table (`repository.Listing`, GORM model).
`itemID` carries a `uniqueIndex`. Time columns are `Nat` instants. -/
structure Listing where
  id : Nat
  itemID : Nat
  nftContract : String
  tokenID : String
  seller : String
  price : String
  status : String
  txHash : String
  listedAt : Nat
  soldAt : Option Nat
  createdAt : Nat
  updatedAt : Nat
deriving Repr, DecidableEq

/-- Row of the `transactions` table (`repository.Transaction`, GORM model).
`txHash` carries a `uniqueIndex`. -/
structure Transaction where
  id : Nat
  txHash : String
  blockNumber : Nat
  blockTimestamp : Nat
  txType : String
  nftContract : String
  tokenID : String
  fromAddress : String
  toAddress : String
  value : String
  valueNumeric : String
  status : String
  logIndex : Nat
deriving Repr, DecidableEq

/-- `blockchain.MarketItemCreatedEvent` (decoded contract event). -/
structure MarketItemCreatedEvent where
  itemId : Nat
  nftContract : String
  tokenId : Nat
  seller : String
  price : Nat
deriving Repr, DecidableEq

/-- `blockchain.MarketItemSoldEvent` (decoded contract event). -/
structure MarketItemSoldEvent where
  itemId : Nat
  buyer : String
  price : Nat
deriving Repr, DecidableEq

/-- The on-chain market item struct returned by the contract's
`getMarketItem` view function (see the ABI in `blockchain/client.go`). -/
structure MarketItem where
  itemId : Nat
  nftContract : String
  tokenId : Nat
  seller : String
  owner : String
  price : Nat
  sold : Bool
  listedAt : Nat
deriving Repr, DecidableEq

/-- `service.CreateListingRequest` (CRUD write-path payload). -/
structure CreateListingRequest where
  itemID : Nat
  nftContract : String
  tokenID : String
  seller : String
  price : String
  txHash : String
deriving Repr, DecidableEq

/-- Decimal digit test. -/
def isDigitChar (c : Char) : Bool := '0' ≤ c ∧ c ≤ '9'

/-- SQL `CAST(price AS NUMERIC)` on the decimal-numeral strings the
backend stores (`big.Int.String()` output); non-numerals map to 0. -/
def castNumeric (s : String) : Nat :=
  if s.data ≠ [] ∧ s.data.all isDigitChar then
    s.data.foldl (fun a c => a * 10 + (c.toNat - '0'.toNat)) 0
  else 0

/-- Go's `int64(x)` cast applied to a `uint64`, as in
`big.NewInt(int64(req.ItemID))` inside `CreateListing`. -/
def int64OfUint64 (n : Nat) : Int :=
  if n < 2 ^ 63 then (n : Int) else (n : Int) - 2 ^ 64

/-- The blockchain read oracle standing for `Client.GetMarketItem`;
`none` models an RPC or contract-call failure. -/
def ChainState : Type := Int → Option MarketItem

/-- The BIGSERIAL id the database assigns to a freshly inserted listing
row: one past the largest id in the table. -/
def nextListingId (s : List Listing) : Nat :=
  (s.map (fun r => r.id)).foldr max 0 + 1

/-- The BIGSERIAL id assigned to a freshly inserted transaction row. -/
def nextTxId (ts : List Transaction) : Nat :=
  (ts.map (fun r => r.id)).foldr max 0 + 1

/-- `ListingRepository.Create`: plain `db.Create`; the UNIQUE index on
`item_id` makes the insert fail when a row with the same itemID exists. -/
def listingCreate (l : Listing) (s : List Listing) :
    Except String (List Listing) :=
  if s.any (fun r => r.itemID = l.itemID) then
    .error "duplicate key value violates unique constraint on item_id"
  else
    .ok (s ++ [{ l with id := nextListingId s }])

/-- `ListingRepository.CreateIfNotExists`: `FirstOrCreate` keyed on
`item_id`; inserts when absent, otherwise leaves the table untouched. -/
def createIfNotExists (l : Listing) (s : List Listing) : List Listing :=
  if s.any (fun r => r.itemID = l.itemID) then s
  else s ++ [{ l with id := nextListingId s }]

/-- `ListingRepository.GetByID`: first row whose primary key matches. -/
def getByID (id : Nat) (s : List Listing) : Option Listing :=
  s.find? (fun r => r.id = id)

/-- `ListingRepository.GetByItemID`. -/
def getByItemID (itemID : Nat) (s : List Listing) : Option Listing :=
  s.find? (fun r => r.itemID = itemID)

/-- `ListingRepository.UpdateStatus`: GORM `Updates` on the rows whose id
matches, setting `status`, setting `sold_at` only when the new status is
"sold", and touching `updated_at`. -/
def updateStatus (id : Nat) (status : String) (now : Nat)
    (s : List Listing) : List Listing :=
  s.map fun r =>
    if r.id = id then
      { r with
        status := status
        soldAt := if status = "sold" then some now else r.soldAt
        updatedAt := now }
    else r

/-- `ListingRepository.CountActiveListings`. -/
def countActiveListings (s : List Listing) : Nat :=
  (s.filter (fun r => r.status = "active")).length

/-- `ListingRepository.CountTotalListings`. -/
def countTotalListings (s : List Listing) : Nat := s.length

/-- SQL `COALESCE(MIN(..), 0)` over a bag of numeric values. -/
def sqlMin : List Nat → Nat
  | [] => 0
  | x :: xs => xs.foldl Nat.min x

/-- SQL `COALESCE(MAX(..), 0)` over a bag of numeric values. -/
def sqlMax : List Nat → Nat
  | [] => 0
  | x :: xs => xs.foldl Nat.max x

/-- The numeric prices of the currently active listings, in table order
(`WHERE status = 'active'` with `CAST(price AS NUMERIC)`). -/
def activePrices (s : List Listing) : List Nat :=
  (s.filter (fun r => r.status = "active")).map (fun r => castNumeric r.price)

/-- `ListingRepository.GetMinPrice` (floor price). -/
def getMinPrice (s : List Listing) : Nat := sqlMin (activePrices s)

/-- `ListingRepository.GetMaxPrice` (ceiling price). -/
def getMaxPrice (s : List Listing) : Nat := sqlMax (activePrices s)

/-- `ListingRepository.GetAveragePrice`: SQL `COALESCE(AVG(..), 0)` over
active listings, an exact rational. -/
def getAveragePrice (s : List Listing) : ℚ :=
  if activePrices s = [] then 0
  else ((activePrices s).sum : ℚ) / ((activePrices s).length : ℚ)

/-- `ListingRepository.GetTotalVolume`: sum of prices of sold listings. -/
def listingTotalVolume (s : List Listing) : Nat :=
  ((s.filter (fun r => r.status = "sold")).map
    (fun r => castNumeric r.price)).sum

/-- `TransactionRepository.Create`: plain `db.Create`; the UNIQUE index
on `tx_hash` makes the insert fail when a row with the same hash exists. -/
def txCreate (t : Transaction) (ts : List Transaction) :
    Except String (List Transaction) :=
  if ts.any (fun r => r.txHash = t.txHash) then
    .error "duplicate key value violates unique constraint on tx_hash"
  else
    .ok (ts ++ [{ t with id := nextTxId ts }])

/-- The listing row `ListingService.CreateListing` builds from an
accepted CRUD request. -/
def requestListing (req : CreateListingRequest) (now : Nat) : Listing :=
  { id := 0
    itemID := req.itemID
    nftContract := req.nftContract
    tokenID := req.tokenID
    seller := req.seller
    price := req.price
    status := "active"
    txHash := req.txHash
    listedAt := now
    soldAt := none
    createdAt := now
    updatedAt := now }

/-- `ListingService.CreateListing`: verifies the submitted listing against
on-chain state via `GetMarketItem`, but compares only the `nftContract`
field (normalised through `HexToAddress`); on success inserts an active
listing row via the plain `Create`. -/
def createListing (req : CreateListingRequest) (chain : ChainState)
    (now : Nat) (s : List Listing) : Except String (List Listing) :=
  match chain (int64OfUint64 req.itemID) with
  | none => .error "failed to verify on-chain data"
  | some item =>
    if hexToAddress item.nftContract ≠ hexToAddress req.nftContract then
      .error "nft contract mismatch"
    else
      match listingCreate (requestListing req now) s with
      | .error e => .error ("failed to create listing: " ++ e)
      | .ok s' => .ok s'

/-- `ListingService.CancelListing`: looks the row up by primary key,
requires the caller to be the stored seller and the status to be
"active", then updates the status to "cancelled". -/
def cancelListing (id : Nat) (seller : String) (now : Nat)
    (s : List Listing) : Except String (List Listing) :=
  match getByID id s with
  | none => .error "failed to get listing"
  | some l =>
    if l.seller ≠ seller then .error "unauthorized: not the seller"
    else if l.status ≠ "active" then .error "listing is not active"
    else .ok (updateStatus id "cancelled" now s)

/-- The listing row `ListingService.UpdateFromEvent` builds from a
`MarketItemCreated` event: `ItemId.Uint64()` truncates to 64 bits,
`TokenId.String()` and `Price.String()` render decimal numerals, and the
creation tx hash is left empty. -/
def eventListing (ev : MarketItemCreatedEvent) (now : Nat) : Listing :=
  { id := 0
    itemID := ev.itemId % 2 ^ 64
    nftContract := ev.nftContract
    tokenID := toString ev.tokenId
    seller := ev.seller
    price := toString ev.price
    status := "active"
    txHash := ""
    listedAt := now
    soldAt := none
    createdAt := now
    updatedAt := now }

/-- `ListingService.UpdateFromEvent`: idempotent insert of the event's
listing through `CreateIfNotExists`. -/
def updateFromEvent (ev : MarketItemCreatedEvent) (now : Nat)
    (s : List Listing) : List Listing :=
  createIfNotExists (eventListing ev now) s

/-- `TransactionService.RecordSale`: builds a "sale" transaction row from
a `MarketItemSold` event — with a placeholder empty tx hash and block
number 0, the buyer as both from and to address, and the price as value —
and plain-inserts it (the existence check in the source is commented
out). -/
def recordSale (ev : MarketItemSoldEvent) (now : Nat)
    (ts : List Transaction) : Except String (List Transaction) :=
  txCreate
    { id := 0
      txHash := ""
      blockNumber := 0
      blockTimestamp := now
      txType := "sale"
      nftContract := ""
      tokenID := ""
      fromAddress := ev.buyer
      toAddress := ev.buyer
      value := toString ev.price
      valueNumeric := toString ev.price
      status := "confirmed"
      logIndex := 0 } ts

/-- The persisted off-chain projection: the two tables the claims are
about. -/
structure Store where
  listings : List Listing
  transactions : List Transaction
deriving Repr, DecidableEq

/-- The contract's events (`NFTMarketplace.sol` declares all three;
the backend's ABI and listeners cover only the first two). -/
inductive ChainEvent where
  | created (ev : MarketItemCreatedEvent)
  | sold (ev : MarketItemSoldEvent)
  | canceled (itemId : Nat)
deriving Repr, DecidableEq

/-- One delivery step of `startEventListener` (main.go): a Created event
goes to `ListingService.UpdateFromEvent`, a Sold event to
`TransactionService.RecordSale` (whose error is logged and dropped), and
a Canceled event is never delivered — the backend subscribes only to the
MarketItemCreated and MarketItemSold topics and its ABI does not declare
MarketItemCanceled. -/
def applyEvent (now : Nat) (st : Store) : ChainEvent → Store
  | .created ev => { st with listings := updateFromEvent ev now st.listings }
  | .sold ev =>
    match recordSale ev now st.transactions with
    | .ok ts => { st with transactions := ts }
    | .error _ => st
  | .canceled _ => st

/-- Processing of a stream of chain events by the event listener. -/
def processEvents (now : Nat) (evs : List ChainEvent) (st : Store) : Store :=
  evs.foldl (applyEvent now) st

/-- An operation against the store: a chain event delivery, a CRUD
listing submission, or a CRUD cancellation. -/
inductive Op where
  | chain (e : ChainEvent)
  | crudCreate (req : CreateListingRequest) (chainState : ChainState)
  | crudCancel (id : Nat) (seller : String)

/-- Effect of one operation on the store; the service layer's errors are
reported to the HTTP caller and leave the store untouched. -/
def stepOp (now : Nat) (st : Store) : Op → Store
  | .chain e => applyEvent now st e
  | .crudCreate req cs =>
    match createListing req cs now st.listings with
    | .ok s' => { st with listings := s' }
    | .error _ => st
  | .crudCancel id seller =>
    match cancelListing id seller now st.listings with
    | .ok s' => { st with listings := s' }
    | .error _ => st

/-- A timed sequence of operations applied in order. -/
def runOps (ops : List (Nat × Op)) (st : Store) : Store :=
  ops.foldl (fun acc p => stepOp p.1 acc p.2) st

/-- The market-statistics record assembled by
`ListingService.GetMarketStats` (the keys of the returned map). -/
structure MarketStats where
  activeListings : Nat
  totalListings : Nat
  soldListings : Nat
  totalVolume : Nat
  averagePrice : ℚ
  floorPrice : Nat
  ceilingPrice : Nat
deriving Repr, DecidableEq

/-- `ListingService.GetMarketStats`: each figure is recomputed from the
current table state; `sold_listings` is total minus active. -/
def getMarketStats (s : List Listing) : MarketStats :=
  { activeListings := countActiveListings s
    totalListings := countTotalListings s
    soldListings := countTotalListings s - countActiveListings s
    totalVolume := listingTotalVolume s
    averagePrice := getAveragePrice s
    floorPrice := getMinPrice s
    ceilingPrice := getMaxPrice s }

/-- Concrete chain state used in scenarios: item 7 is listed on-chain
with nft contract 0xCC by seller 0xBBBB. -/
def chainSellerB : ChainState := fun i =>
  if i = 7 then
    some { itemId := 7, nftContract := "0xCC", tokenId := 1,
           seller := "0xBBBB", owner := "0x00", price := 100,
           sold := false, listedAt := 0 }
  else none

/-- Concrete store used in scenarios: one active listing for item 7. -/
def storeItem7 : Store :=
  { listings := [{ id := 1, itemID := 7, nftContract := "0xCC",
                   tokenID := "1", seller := "0xAA", price := "100",
                   status := "active", txHash := "0xabc", listedAt := 0,
                   soldAt := none, createdAt := 0, updatedAt := 0 }]
    transactions := [] }

/-! Helper lemmas about the repository operations. -/

/-- Idempotent insert is a no-op when a row with the itemID exists. -/
theorem createIfNotExists_of_mem (l : Listing) (s : List Listing)
    (h : ∃ r ∈ s, r.itemID = l.itemID) : createIfNotExists l s = s := by
  unfold createIfNotExists
  have hb : s.any (fun r => r.itemID = l.itemID) = true := by
    simpa [List.any_eq_true] using h
  simp [hb]

/-- Idempotent insert appends a fresh row when the itemID is absent. -/
theorem createIfNotExists_of_not_mem (l : Listing) (s : List Listing)
    (h : ¬ ∃ r ∈ s, r.itemID = l.itemID) :
    createIfNotExists l s = s ++ [{ l with id := nextListingId s }] := by
  unfold createIfNotExists
  have hb : ¬ s.any (fun r => r.itemID = l.itemID) = true := by
    simpa [List.any_eq_true] using h
  simp [hb]

/-- Plain insert fails on the unique itemID index. -/
theorem listingCreate_of_dup (l : Listing) (s : List Listing)
    (h : ∃ r ∈ s, r.itemID = l.itemID) :
    listingCreate l s =
      .error "duplicate key value violates unique constraint on item_id" := by
  unfold listingCreate
  have hb : s.any (fun r => r.itemID = l.itemID) = true := by
    simpa [List.any_eq_true] using h
  simp [hb]

/-- Folded minimum is bounded by its seed. -/
theorem foldl_min_le_init (ps : List Nat) :
    ∀ a : Nat, ps.foldl Nat.min a ≤ a := by
  induction ps with
  | nil => intro a; exact Nat.le_refl a
  | cons p tl ih =>
    intro a
    exact Nat.le_trans (ih (Nat.min a p)) (Nat.min_le_left a p)

/-- Folded minimum is bounded by every list element. -/
theorem foldl_min_le_mem (ps : List Nat) :
    ∀ a x : Nat, x ∈ ps → ps.foldl Nat.min a ≤ x := by
  induction ps with
  | nil => intro a x hx; cases hx
  | cons p tl ih =>
    intro a x hx
    rcases List.mem_cons.mp hx with rfl | hx
    · exact Nat.le_trans (foldl_min_le_init tl (Nat.min a x))
        (Nat.min_le_right a x)
    · exact ih (Nat.min a p) x hx

/-- Folded minimum is the seed or one of the elements. -/
theorem foldl_min_mem_or (ps : List Nat) :
    ∀ a : Nat, ps.foldl Nat.min a = a ∨ ps.foldl Nat.min a ∈ ps := by
  induction ps with
  | nil => intro a; exact Or.inl rfl
  | cons p tl ih =>
    intro a
    rcases ih (Nat.min a p) with h | h
    · rcases Nat.le_total a p with hle | hle
      · exact Or.inl (by
          rw [List.foldl_cons, h, show a.min p = a by
            rw [show a.min p = if a ≤ p then a else p from rfl]
            split <;> omega])
      · exact Or.inr (by
          rw [List.foldl_cons, h, show a.min p = p by
            rw [show a.min p = if a ≤ p then a else p from rfl]
            split <;> omega]
          exact List.mem_cons_self p tl)
    · exact Or.inr (List.mem_cons_of_mem p h)

/-- SQL MIN is a lower bound of the aggregated values. -/
theorem sqlMin_le (ps : List Nat) (x : Nat) (hx : x ∈ ps) : sqlMin ps ≤ x := by
  cases ps with
  | nil => cases hx
  | cons p tl =>
    rcases List.mem_cons.mp hx with rfl | hx
    · exact foldl_min_le_init tl x
    · exact foldl_min_le_mem tl p x hx

/-- SQL MIN of a nonempty bag is attained by one of its values. -/
theorem sqlMin_mem (ps : List Nat) (h : ps ≠ []) : sqlMin ps ∈ ps := by
  cases ps with
  | nil => exact absurd rfl h
  | cons p tl =>
    rcases foldl_min_mem_or tl p with h1 | h1
    · rw [sqlMin]; rw [h1]; exact List.mem_cons_self p tl
    · exact List.mem_cons_of_mem p h1

/-- Folded maximum dominates its seed. -/
theorem foldl_max_ge_init (ps : List Nat) :
    ∀ a : Nat, a ≤ ps.foldl Nat.max a := by
  induction ps with
  | nil => intro a; exact Nat.le_refl a
  | cons p tl ih =>
    intro a
    exact Nat.le_trans (Nat.le_max_left a p) (ih (Nat.max a p))

/-- Folded maximum dominates every list element. -/
theorem foldl_max_ge_mem (ps : List Nat) :
    ∀ a x : Nat, x ∈ ps → x ≤ ps.foldl Nat.max a := by
  induction ps with
  | nil => intro a x hx; cases hx
  | cons p tl ih =>
    intro a x hx
    rcases List.mem_cons.mp hx with rfl | hx
    · exact Nat.le_trans (Nat.le_max_right a x)
        (foldl_max_ge_init tl (Nat.max a x))
    · exact ih (Nat.max a p) x hx

/-- Folded maximum is the seed or one of the elements. -/
theorem foldl_max_mem_or (ps : List Nat) :
    ∀ a : Nat, ps.foldl Nat.max a = a ∨ ps.foldl Nat.max a ∈ ps := by
  induction ps with
  | nil => intro a; exact Or.inl rfl
  | cons p tl ih =>
    intro a
    rcases ih (Nat.max a p) with h | h
    · rcases Nat.le_total p a with hle | hle
      · exact Or.inl (by
          rw [List.foldl_cons, h, show a.max p = a by
            rw [show a.max p = if a ≤ p then p else a from rfl]
            split <;> omega])
      · exact Or.inr (by
          rw [List.foldl_cons, h, show a.max p = p by
            rw [show a.max p = if a ≤ p then p else a from rfl]
            split <;> omega]
          exact List.mem_cons_self p tl)
    · exact Or.inr (List.mem_cons_of_mem p h)

/-- SQL MAX is an upper bound of the aggregated values. -/
theorem sqlMax_ge (ps : List Nat) (x : Nat) (hx : x ∈ ps) : x ≤ sqlMax ps := by
  cases ps with
  | nil => cases hx
  | cons p tl =>
    rcases List.mem_cons.mp hx with rfl | hx
    · exact foldl_max_ge_init tl x
    · exact foldl_max_ge_mem tl p x hx

/-- SQL MAX of a nonempty bag is attained by one of its values. -/
theorem sqlMax_mem (ps : List Nat) (h : ps ≠ []) : sqlMax ps ∈ ps := by
  cases ps with
  | nil => exact absurd rfl h
  | cons p tl =>
    rcases foldl_max_mem_or tl p with h1 | h1
    · rw [sqlMax]; rw [h1]; exact List.mem_cons_self p tl
    · exact List.mem_cons_of_mem p h1

/-- Price of an active listing occurs among the aggregated prices. -/
theorem mem_activePrices (s : List Listing) (l : Listing) (hl : l ∈ s)
    (ha : l.status = "active") : castNumeric l.price ∈ activePrices s := by
  unfold activePrices
  exact List.mem_map_of_mem _ (List.mem_filter.mpr ⟨hl, by simp [ha]⟩)

/-- Every aggregated price comes from an active listing. -/
theorem activePrices_mem_inv (s : List Listing) (x : Nat)
    (hx : x ∈ activePrices s) :
    ∃ l ∈ s, l.status = "active" ∧ castNumeric l.price = x := by
  unfold activePrices at hx
  rcases List.mem_map.mp hx with ⟨l, hl, hpx⟩
  rcases List.mem_filter.mp hl with ⟨hls, hact⟩
  exact ⟨l, hls, by simpa using hact, hpx⟩

/-- With no active listing the aggregated price bag is empty. -/
theorem activePrices_nil (s : List Listing)
    (h : ∀ l ∈ s, l.status ≠ "active") : activePrices s = [] := by
  unfold activePrices
  rw [List.filter_eq_nil_iff.mpr (fun l hl => by simpa using h l hl)]
  rfl

/-- Non-active rows do not contribute to the aggregated price bag. -/
theorem activePrices_cons_of_inactive (extra : Listing) (s : List Listing)
    (h : extra.status ≠ "active") :
    activePrices (extra :: s) = activePrices s := by
  unfold activePrices
  rw [List.filter_cons_of_neg (by simpa using h)]

/-- Lookup by primary key returns the member row when ids are unique. -/
theorem getByID_of_nodup (s : List Listing)
    (hnd : (s.map (fun r => r.id)).Nodup) (l : Listing) (hl : l ∈ s) :
    getByID l.id s = some l := by
  induction s with
  | nil => cases hl
  | cons a tl ih =>
    rw [List.map_cons, List.nodup_cons] at hnd
    rcases List.mem_cons.mp hl with rfl | hl2
    · exact List.find?_cons_of_pos _ (by simp)
    · have hne : a.id ≠ l.id := by
        intro he
        exact hnd.1 (he ▸ List.mem_map_of_mem (fun r => r.id) hl2)
      rw [getByID, List.find?_cons_of_neg _ (by simp [hne])]
      exact ih hnd.2 hl2

/-- Pointwise image relation between a list and its map. -/
theorem forall2_map_self {α : Type} (P : α → α → Prop) (f : α → α)
    (s : List α) (h : ∀ r, P r (f r)) : List.Forall₂ P s (s.map f) := by
  induction s with
  | nil => exact List.Forall₂.nil
  | cons a tl ih => exact List.Forall₂.cons (h a) ih

/-- Members bound the running maximum used for id assignment. -/
theorem le_foldr_max (x : Nat) (ids : List Nat) (hx : x ∈ ids) :
    x ≤ ids.foldr max 0 := by
  induction ids with
  | nil => cases hx
  | cons a tl ih =>
    rcases List.mem_cons.mp hx with rfl | hx2
    · exact Nat.le_max_left x (tl.foldr max 0)
    · exact Nat.le_trans (ih hx2) (Nat.le_max_right a (tl.foldr max 0))

/-- Freshly assigned ids differ from every existing id. -/
theorem id_ne_nextListingId (s : List Listing) (r : Listing) (hr : r ∈ s) :
    r.id ≠ nextListingId s := by
  have hle := le_foldr_max r.id (s.map (fun q => q.id))
    (List.mem_map_of_mem (fun q => q.id) hr)
  unfold nextListingId
  omega

/-- Appending a freshly numbered row keeps the ids duplicate-free. -/
theorem nodup_ids_append_fresh (s : List Listing) (l : Listing)
    (hnd : (s.map (fun r => r.id)).Nodup) :
    ((s ++ [({ l with id := nextListingId s } : Listing)]).map
      (fun r => r.id)).Nodup := by
  rw [List.map_append, List.nodup_append]
  refine ⟨hnd, List.nodup_singleton _, ?_⟩
  intro a ha hb
  rcases List.mem_map.mp ha with ⟨r, hr, hra⟩
  rcases List.mem_singleton.mp (by simpa using hb) with rfl
  exact id_ne_nextListingId s r hr (by rw [← hra])

/-- Status updates never change the id column. -/
theorem updateStatus_map_ids (id : Nat) (status : String) (t : Nat)
    (s : List Listing) :
    (updateStatus id status t s).map (fun r => r.id) =
      s.map (fun r => r.id) := by
  unfold updateStatus
  rw [List.map_map]
  refine List.map_congr_left ?_
  intro r _
  show (if r.id = id then _ else r).id = r.id
  split <;> rfl

/-- Idempotent insert keeps the ids duplicate-free. -/
theorem createIfNotExists_nodup (l : Listing) (s : List Listing)
    (hnd : (s.map (fun r => r.id)).Nodup) :
    ((createIfNotExists l s).map (fun r => r.id)).Nodup := by
  unfold createIfNotExists
  split
  · exact hnd
  · exact nodup_ids_append_fresh s l hnd

/-- Successful plain inserts append exactly the freshly numbered row. -/
theorem listingCreate_ok_shape (l : Listing) (s : List Listing)
    (s' : List Listing) (h : listingCreate l s = .ok s') :
    s' = s ++ [{ l with id := nextListingId s }] := by
  unfold listingCreate at h
  split at h
  · cases h
  · cases h
    rfl

/-- Successful CRUD listing creation appends exactly the request's row. -/
theorem createListing_ok_shape (req : CreateListingRequest)
    (chain : ChainState) (t : Nat) (s : List Listing) (s' : List Listing)
    (h : createListing req chain t s = .ok s') :
    s' = s ++ [{ requestListing req t with id := nextListingId s }] := by
  unfold createListing at h
  cases hc : chain (int64OfUint64 req.itemID) with
  | none => rw [hc] at h; cases h
  | some item =>
    simp only [hc] at h
    by_cases hmm : hexToAddress item.nftContract ≠ hexToAddress req.nftContract
    · rw [if_pos hmm] at h
      cases h
    · rw [if_neg hmm] at h
      cases hlc : listingCreate (requestListing req t) s with
      | error e =>
        rw [hlc] at h
        cases h
      | ok s'' =>
        rw [hlc] at h
        cases h
        exact listingCreate_ok_shape _ _ _ hlc

/-- Successful CRUD cancellation is exactly the status update, and it
presupposes an active row owned by the caller. -/
theorem cancelListing_ok_shape (id : Nat) (seller : String) (t : Nat)
    (s : List Listing) (s' : List Listing)
    (h : cancelListing id seller t s = .ok s') :
    s' = updateStatus id "cancelled" t s ∧
    ∃ l0, getByID id s = some l0 ∧ l0.status = "active" ∧
      l0.seller = seller := by
  unfold cancelListing at h
  cases hg : getByID id s with
  | none => simp [hg] at h
  | some l0 =>
    simp only [hg] at h
    by_cases hsel : l0.seller ≠ seller
    · rw [if_pos hsel] at h
      cases h
    · rw [if_neg hsel] at h
      by_cases hst : l0.status ≠ "active"
      · rw [if_pos hst] at h
        cases h
      · rw [if_neg hst] at h
        cases h
        exact ⟨rfl, l0, rfl, not_not.mp hst, not_not.mp hsel⟩

/-- Existing rows survive the idempotent insert. -/
theorem createIfNotExists_mem_of_mem (x : Listing) (s : List Listing)
    (l : Listing) (hl : l ∈ s) : l ∈ createIfNotExists x s := by
  unfold createIfNotExists
  split
  · exact hl
  · exact List.mem_append_left _ hl

/-- Sold-event processing never touches the listings table. -/
theorem applyEvent_sold_listings (t : Nat) (st : Store)
    (ev : MarketItemSoldEvent) :
    (applyEvent t st (.sold ev)).listings = st.listings := by
  unfold applyEvent
  cases h : recordSale ev t st.transactions <;> simp [h]

/-! Claim theorems. -/

/-- C1: the spec claims a delivered MarketItemSold event transitions the
matching active ListingRecord to status "sold" with the buyer set and
appends one "sale" TransactionRecord; on the stream
[Created(item 7, price 100), Sold(item 7, buyer 0xBB)] the code indeed
appends exactly one "sale" TransactionRecord with value "100", but the
listing for item 7 is left with status "active" (the Sold listener calls
only RecordSale; nothing updates the listing and its model has no buyer
column), contradicting the claimed transition. -/
theorem c1_sold_event_leaves_listing_active :
    ((processEvents 0
        [.created ⟨7, "0xCC", 1, "0xAA", 100⟩, .sold ⟨7, "0xBB", 100⟩]
        ⟨[], []⟩).listings.map
          (fun l => (l.itemID, l.status, l.price, l.seller)) =
      [(7, "active", "100", "0xAA")]) ∧
    ((processEvents 0
        [.created ⟨7, "0xCC", 1, "0xAA", 100⟩, .sold ⟨7, "0xBB", 100⟩]
        ⟨[], []⟩).transactions.map
          (fun t => (t.txType, t.value, t.txHash)) =
      [("sale", "100", "")]) := by
  refine ⟨?_, ?_⟩ <;> decide

/-- C2: applying the same MarketItemCreated event twice yields exactly one
ListingRecord — re-application is a no-op; an application whose itemId is
already present leaves the table unchanged; and when the itemId is absent
the event inserts exactly one record with status "active". -/
theorem c2_created_event_idempotent (ev : MarketItemCreatedEvent)
    (t1 t2 : Nat) (s : List Listing) :
    updateFromEvent ev t2 (updateFromEvent ev t1 s) = updateFromEvent ev t1 s ∧
    ((∃ l ∈ s, l.itemID = ev.itemId % 2 ^ 64) → updateFromEvent ev t1 s = s) ∧
    ((¬ ∃ l ∈ s, l.itemID = ev.itemId % 2 ^ 64) →
      updateFromEvent ev t1 s =
        s ++ [{ eventListing ev t1 with id := nextListingId s }] ∧
      ({ eventListing ev t1 with id := nextListingId s } : Listing).status
        = "active" ∧
      ({ eventListing ev t1 with id := nextListingId s } : Listing).itemID
        = ev.itemId % 2 ^ 64) := by
  refine ⟨?_, ?_, ?_⟩
  · by_cases h : ∃ l ∈ s, l.itemID = ev.itemId % 2 ^ 64
    · have h1 : updateFromEvent ev t1 s = s :=
        createIfNotExists_of_mem _ _ h
      have h2 : updateFromEvent ev t2 s = s :=
        createIfNotExists_of_mem _ _ h
      rw [h1, h2]
    · have h1 : updateFromEvent ev t1 s =
          s ++ [{ eventListing ev t1 with id := nextListingId s }] :=
        createIfNotExists_of_not_mem _ _ h
      rw [h1]
      apply createIfNotExists_of_mem
      exact ⟨{ eventListing ev t1 with id := nextListingId s },
        List.mem_append_right _ (List.mem_singleton_self _), rfl⟩
  · exact fun h => createIfNotExists_of_mem _ _ h
  · exact fun h => ⟨createIfNotExists_of_not_mem _ _ h, rfl, rfl⟩

/-- Witness for C2 at a concrete store already holding item 7: the second
delivery of the Created event leaves the table unchanged. -/
theorem c2_created_event_idempotent_witness :
    updateFromEvent ⟨7, "0xCC", 1, "0xAA", 100⟩ 5
        [{ id := 1, itemID := 7, nftContract := "0xCC", tokenID := "1",
           seller := "0xAA", price := "100", status := "active",
           txHash := "", listedAt := 0, soldAt := none,
           createdAt := 0, updatedAt := 0 }] =
      [{ id := 1, itemID := 7, nftContract := "0xCC", tokenID := "1",
         seller := "0xAA", price := "100", status := "active",
         txHash := "", listedAt := 0, soldAt := none,
         createdAt := 0, updatedAt := 0 }] :=
  (c2_created_event_idempotent ⟨7, "0xCC", 1, "0xAA", 100⟩ 5 0 _).2.1
    (by decide)

/-- C3 counterexample: a CRUD submission claiming seller 0xAAAA for item 7
while the on-chain item says seller 0xBBBB is accepted and persisted with
the claimed seller, because CreateListing compares only the nftContract
field against chain state — refuting the claim that any contradicted
field (seller in particular) is rejected. -/
theorem c3_seller_mismatch_persisted :
    ((createListing
        { itemID := 7, nftContract := "0xCC", tokenID := "1",
          seller := "0xAAAA", price := "100", txHash := "0xabc" }
        chainSellerB 0 []).toOption.map
          (fun s => s.map (fun l => (l.itemID, l.seller, l.status))) =
      some [(7, "0xAAAA", "active")]) ∧
    chainSellerB (int64OfUint64 7) =
      some { itemId := 7, nftContract := "0xCC", tokenId := 1,
             seller := "0xBBBB", owner := "0x00", price := 100,
             sold := false, listedAt := 0 } ∧
    ("0xBBBB" : String) ≠ "0xAAAA" := by
  refine ⟨?_, ?_, ?_⟩ <;> decide

/-- C3 amended: CreateListing verifies only the nftContract field of a
submission against the on-chain market item; when that field mismatches
(after HexToAddress normalisation) the submission is rejected with the
mismatch error and nothing is persisted; mismatches in other claimed
fields such as the seller are not checked. -/
theorem c3_rejects_nftcontract_mismatch
    (req : CreateListingRequest) (chain : ChainState) (t : Nat) (st : Store)
    (item : MarketItem)
    (hchain : chain (int64OfUint64 req.itemID) = some item)
    (hmm : hexToAddress item.nftContract ≠ hexToAddress req.nftContract) :
    createListing req chain t st.listings = .error "nft contract mismatch" ∧
    stepOp t st (.crudCreate req chain) = st := by
  have h1 : createListing req chain t st.listings =
      .error "nft contract mismatch" := by
    unfold createListing
    rw [hchain]
    simp [hmm]
  refine ⟨h1, ?_⟩
  have h2 : stepOp t st (.crudCreate req chain) =
      (match createListing req chain t st.listings with
        | .ok s' => { st with listings := s' }
        | .error _ => st) := rfl
  rw [h2, h1]

/-- Witness for C3 amended: a submission naming contract 0xDD for item 7
whose chain record says 0xCC is rejected and the store is unchanged. -/
theorem c3_rejects_nftcontract_mismatch_witness :
    createListing
        { itemID := 7, nftContract := "0xDD", tokenID := "1",
          seller := "0xAAAA", price := "100", txHash := "0xabc" }
        chainSellerB 0
        ({ listings := [], transactions := [] } : Store).listings
      = .error "nft contract mismatch" ∧
    stepOp 0 { listings := [], transactions := [] }
        (.crudCreate
          { itemID := 7, nftContract := "0xDD", tokenID := "1",
            seller := "0xAAAA", price := "100", txHash := "0xabc" }
          chainSellerB)
      = { listings := [], transactions := [] } :=
  c3_rejects_nftcontract_mismatch
    { itemID := 7, nftContract := "0xDD", tokenID := "1",
      seller := "0xAAAA", price := "100", txHash := "0xabc" }
    chainSellerB 0 { listings := [], transactions := [] }
    { itemId := 7, nftContract := "0xCC", tokenId := 1,
      seller := "0xBBBB", owner := "0x00", price := 100,
      sold := false, listedAt := 0 }
    (by decide) (by decide)

/-- C4: the spec claims sale TransactionRecord writes are keyed by
(transactionHash, logIndex) and duplicate delivery is a first-writer-wins
no-op; in the code RecordSale stores every sale with the placeholder
txHash "" and logIndex 0 and plain-inserts against the unique tx_hash
index, so after delivering the same Sold event twice and then a distinct
sale, only the first record exists — the redelivery is rejected with a
duplicate-key error rather than a keyed no-op, and the distinct second
sale is lost as well. -/
theorem c4_sale_records_not_keyed_idempotent :
    ((processEvents 0
        [.sold ⟨7, "0xBB", 100⟩, .sold ⟨7, "0xBB", 100⟩,
         .sold ⟨8, "0xCC", 200⟩]
        ⟨[], []⟩).transactions.map
          (fun t => (t.txHash, t.logIndex, t.txType, t.value)) =
      [("", 0, "sale", "100")]) ∧
    (recordSale ⟨8, "0xCC", 200⟩ 1
        (processEvents 0 [.sold ⟨7, "0xBB", 100⟩]
          ⟨[], []⟩).transactions).toOption = none := by
  refine ⟨?_, ?_⟩ <;> decide

/-- C5 counterexample: on the duplicate-delivery stream
[Created(7), Created(7), Cancel(7)] the final store holds exactly one
ListingRecord for item 7, but its status is "active", not "cancelled" —
the backend has no MarketItemCanceled subscription (its ABI does not even
declare the event), so the cancel event is never processed. -/
theorem c5_cancel_stream_counterexample :
    (processEvents 0
        [.created ⟨7, "0xCC", 1, "0xAA", 100⟩,
         .created ⟨7, "0xCC", 1, "0xAA", 100⟩,
         .canceled 7]
        ⟨[], []⟩).listings.map (fun l => (l.itemID, l.status)) =
      [(7, "active")] := by decide

/-- C5 amended: a MarketItemCanceled chain event is a no-op on the store
(no listener consumes it), and the stream
[Created(ev), Created(ev), Cancel] applied to an empty store ends with
exactly one ListingRecord for the event's itemId whose status is still
"active"; listings change to "cancelled" only through the CRUD
CancelListing path. -/
theorem c5_cancel_event_ignored (i t : Nat) (st : Store)
    (ev : MarketItemCreatedEvent) (t' : Nat) :
    applyEvent t st (.canceled i) = st ∧
    ∃ l,
      (processEvents t'
          [.created ev, .created ev, .canceled (ev.itemId % 2 ^ 64)]
          ⟨[], []⟩).listings = [l] ∧
      l.itemID = ev.itemId % 2 ^ 64 ∧ l.status = "active" := by
  refine ⟨rfl, ⟨{ eventListing ev t' with id := nextListingId [] }, ?_, rfl, rfl⟩⟩
  show (applyEvent t' (applyEvent t' (applyEvent t' ⟨[], []⟩ (.created ev))
      (.created ev)) (.canceled (ev.itemId % 2 ^ 64))).listings = _
  have h1 : updateFromEvent ev t' [] =
      [{ eventListing ev t' with id := nextListingId [] }] :=
    createIfNotExists_of_not_mem _ _ (by simp)
  have h2 : updateFromEvent ev t'
      [{ eventListing ev t' with id := nextListingId [] }] =
      [{ eventListing ev t' with id := nextListingId [] }] :=
    createIfNotExists_of_mem _ _ ⟨_, List.mem_singleton_self _, rfl⟩
  simp [applyEvent, h1, h2]

/-- Per-operation monotonicity: under duplicate-free ids, every listing
row survives any single operation with the same id, either unchanged or
moved from "active" to "cancelled". -/
theorem stepOp_listing_mono (t : Nat) (op : Op) (st : Store)
    (hnd : (st.listings.map (fun r => r.id)).Nodup)
    (l : Listing) (hl : l ∈ st.listings) :
    ∃ l' ∈ (stepOp t st op).listings,
      l'.id = l.id ∧
      (l' = l ∨ (l.status = "active" ∧ l'.status = "cancelled")) := by
  cases op with
  | chain e =>
    cases e with
    | created ev =>
      exact ⟨l,
        createIfNotExists_mem_of_mem (eventListing ev t) st.listings l hl,
        rfl, Or.inl rfl⟩
    | sold ev =>
      refine ⟨l, ?_, rfl, Or.inl rfl⟩
      show l ∈ (applyEvent t st (.sold ev)).listings
      rw [applyEvent_sold_listings]
      exact hl
    | canceled i => exact ⟨l, hl, rfl, Or.inl rfl⟩
  | crudCreate req cs =>
    cases hres : createListing req cs t st.listings with
    | error e =>
      have hstep : stepOp t st (.crudCreate req cs) = st := by
        show (match createListing req cs t st.listings with
          | .ok s' => ({ st with listings := s' } : Store)
          | .error _ => st) = st
        rw [hres]
      rw [hstep]
      exact ⟨l, hl, rfl, Or.inl rfl⟩
    | ok s' =>
      have hshape := createListing_ok_shape req cs t st.listings s' hres
      have hstep : (stepOp t st (.crudCreate req cs)).listings = s' := by
        show (match createListing req cs t st.listings with
          | .ok s'' => ({ st with listings := s'' } : Store)
          | .error _ => st).listings = s'
        rw [hres]
      rw [hstep, hshape]
      exact ⟨l, List.mem_append_left _ hl, rfl, Or.inl rfl⟩
  | crudCancel id seller =>
    cases hres : cancelListing id seller t st.listings with
    | error e =>
      have hstep : stepOp t st (.crudCancel id seller) = st := by
        show (match cancelListing id seller t st.listings with
          | .ok s' => ({ st with listings := s' } : Store)
          | .error _ => st) = st
        rw [hres]
      rw [hstep]
      exact ⟨l, hl, rfl, Or.inl rfl⟩
    | ok s' =>
      obtain ⟨hupd, l0, hg, hst0, hsel0⟩ :=
        cancelListing_ok_shape id seller t st.listings s' hres
      have hstep : (stepOp t st (.crudCancel id seller)).listings = s' := by
        show (match cancelListing id seller t st.listings with
          | .ok s'' => ({ st with listings := s'' } : Store)
          | .error _ => st).listings = s'
        rw [hres]
      rw [hstep, hupd]
      by_cases hid : l.id = id
      · have hfind : getByID id st.listings = some l := by
          rw [← hid]
          exact getByID_of_nodup st.listings hnd l hl
        rw [hfind] at hg
        injection hg with hl0
        refine ⟨_, List.mem_map_of_mem _ hl, ?_, Or.inr ⟨?_, ?_⟩⟩
        · show (if l.id = id then _ else l).id = l.id
          rw [if_pos hid]
        · rw [hl0]
          exact hst0
        · show (if l.id = id then _ else l).status = "cancelled"
          rw [if_pos hid]
      · refine ⟨_, List.mem_map_of_mem _ hl, ?_, Or.inl ?_⟩
        · show (if l.id = id then _ else l).id = l.id
          rw [if_neg hid]
        · show (if l.id = id then _ else l) = l
          rw [if_neg hid]

/-- Every operation preserves duplicate-freedom of the listing ids. -/
theorem stepOp_nodup (t : Nat) (op : Op) (st : Store)
    (hnd : (st.listings.map (fun r => r.id)).Nodup) :
    ((stepOp t st op).listings.map (fun r => r.id)).Nodup := by
  cases op with
  | chain e =>
    cases e with
    | created ev =>
      exact createIfNotExists_nodup (eventListing ev t) st.listings hnd
    | sold ev =>
      rw [show (stepOp t st (.chain (.sold ev))).listings = st.listings from
        applyEvent_sold_listings t st ev]
      exact hnd
    | canceled i => exact hnd
  | crudCreate req cs =>
    cases hres : createListing req cs t st.listings with
    | error e =>
      have hstep : stepOp t st (.crudCreate req cs) = st := by
        show (match createListing req cs t st.listings with
          | .ok s' => ({ st with listings := s' } : Store)
          | .error _ => st) = st
        rw [hres]
      rw [hstep]
      exact hnd
    | ok s' =>
      have hshape := createListing_ok_shape req cs t st.listings s' hres
      have hstep : (stepOp t st (.crudCreate req cs)).listings = s' := by
        show (match createListing req cs t st.listings with
          | .ok s'' => ({ st with listings := s'' } : Store)
          | .error _ => st).listings = s'
        rw [hres]
      rw [hstep, hshape]
      exact nodup_ids_append_fresh st.listings (requestListing req t) hnd
  | crudCancel id seller =>
    cases hres : cancelListing id seller t st.listings with
    | error e =>
      have hstep : stepOp t st (.crudCancel id seller) = st := by
        show (match cancelListing id seller t st.listings with
          | .ok s' => ({ st with listings := s' } : Store)
          | .error _ => st) = st
        rw [hres]
      rw [hstep]
      exact hnd
    | ok s' =>
      obtain ⟨hupd, _, _, _, _⟩ :=
        cancelListing_ok_shape id seller t st.listings s' hres
      have hstep : (stepOp t st (.crudCancel id seller)).listings = s' := by
        show (match cancelListing id seller t st.listings with
          | .ok s'' => ({ st with listings := s'' } : Store)
          | .error _ => st).listings = s'
        rw [hres]
      rw [hstep, hupd, updateStatus_map_ids]
      exact hnd

/-- Over any timed operation sequence, each listing row keeps its id and
either keeps all its fields or moves from "active" to "cancelled". -/
theorem runOps_listing_mono (ops : List (Nat × Op)) (st : Store)
    (hnd : (st.listings.map (fun r => r.id)).Nodup)
    (l : Listing) (hl : l ∈ st.listings) :
    ∃ l' ∈ (runOps ops st).listings,
      l'.id = l.id ∧
      (l' = l ∨ (l.status = "active" ∧ l'.status = "cancelled")) := by
  induction ops generalizing st l with
  | nil => exact ⟨l, hl, rfl, Or.inl rfl⟩
  | cons p rest ih =>
    obtain ⟨m, hm, hmid, hmrel⟩ := stepOp_listing_mono p.1 p.2 st hnd l hl
    obtain ⟨l', hl', hid', hrel'⟩ :=
      ih (stepOp p.1 st p.2) (stepOp_nodup p.1 p.2 st hnd) m hm
    refine ⟨l', hl', by rw [hid', hmid], ?_⟩
    rcases hrel' with rfl | ⟨hma, hlc⟩
    · exact hmrel
    · rcases hmrel with rfl | ⟨hla, hmc⟩
      · exact Or.inr ⟨hma, hlc⟩
      · rw [hmc] at hma
        exact absurd hma (by decide)

/-- C6: listing status is monotonic — for every store with
duplicate-free row ids and every sequence of chain events and CRUD
operations, each listing row evolves into a row with the same id whose
status either is unchanged or moved from "active" to a terminal status;
in particular a "sold" or "cancelled" row never returns to "active". -/
theorem c6_status_monotonic (ops : List (Nat × Op)) (st : Store)
    (hnd : (st.listings.map (fun r => r.id)).Nodup)
    (l : Listing) (hl : l ∈ st.listings) :
    ∃ l' ∈ (runOps ops st).listings,
      l'.id = l.id ∧
      (l'.status = l.status ∨
        (l.status = "active" ∧
          (l'.status = "sold" ∨ l'.status = "cancelled"))) := by
  obtain ⟨l', hl', hid, hrel⟩ := runOps_listing_mono ops st hnd l hl
  refine ⟨l', hl', hid, ?_⟩
  rcases hrel with rfl | ⟨ha, hc⟩
  · exact Or.inl rfl
  · exact Or.inr ⟨ha, Or.inr hc⟩

/-- Witness for C6: a "sold" row survives a cancel attempt with its
status intact. -/
theorem c6_status_monotonic_witness :
    ∃ l' ∈ (runOps [(5, Op.crudCancel 1 "0xEE")]
        { listings := [{ id := 1, itemID := 7, nftContract := "0xCC",
                         tokenID := "1", seller := "0xAA", price := "100",
                         status := "sold", txHash := "", listedAt := 0,
                         soldAt := none, createdAt := 0, updatedAt := 0 }],
          transactions := [] }).listings,
      l'.id = 1 ∧
      (l'.status = "sold" ∨
        ("sold" = "active" ∧
          (l'.status = "sold" ∨ l'.status = "cancelled"))) :=
  c6_status_monotonic [(5, Op.crudCancel 1 "0xEE")]
    { listings := [{ id := 1, itemID := 7, nftContract := "0xCC",
                     tokenID := "1", seller := "0xAA", price := "100",
                     status := "sold", txHash := "", listedAt := 0,
                     soldAt := none, createdAt := 0, updatedAt := 0 }],
      transactions := [] }
    (by decide)
    { id := 1, itemID := 7, nftContract := "0xCC", tokenID := "1",
      seller := "0xAA", price := "100", status := "sold", txHash := "",
      listedAt := 0, soldAt := none, createdAt := 0, updatedAt := 0 }
    (by decide)

/-- C7: the price aggregates of GetMarketStats are recomputed from the
currently active listings at query time — the floor price is a lower
bound of every active listing's price and is attained by one of them
(0 when none are active), symmetrically for the ceiling price, the
average is 0 when no listing is active, and adding any non-active
listing changes none of the three figures. -/
theorem c7_price_stats_over_active (s : List Listing) :
    (∀ l ∈ s, l.status = "active" →
      (getMarketStats s).floorPrice ≤ castNumeric l.price ∧
      castNumeric l.price ≤ (getMarketStats s).ceilingPrice) ∧
    ((∃ l ∈ s, l.status = "active") →
      (∃ l ∈ s, l.status = "active" ∧
        castNumeric l.price = (getMarketStats s).floorPrice) ∧
      (∃ l ∈ s, l.status = "active" ∧
        castNumeric l.price = (getMarketStats s).ceilingPrice)) ∧
    ((∀ l ∈ s, l.status ≠ "active") →
      (getMarketStats s).floorPrice = 0 ∧
      (getMarketStats s).ceilingPrice = 0 ∧
      (getMarketStats s).averagePrice = 0) ∧
    (∀ extra : Listing, extra.status ≠ "active" →
      (getMarketStats (extra :: s)).floorPrice =
        (getMarketStats s).floorPrice ∧
      (getMarketStats (extra :: s)).ceilingPrice =
        (getMarketStats s).ceilingPrice ∧
      (getMarketStats (extra :: s)).averagePrice =
        (getMarketStats s).averagePrice) := by
  refine ⟨?_, ?_, ?_, ?_⟩
  · intro l hl ha
    exact ⟨sqlMin_le _ _ (mem_activePrices s l hl ha),
           sqlMax_ge _ _ (mem_activePrices s l hl ha)⟩
  · rintro ⟨l, hl, ha⟩
    have hne : activePrices s ≠ [] := by
      intro h0
      have hm := mem_activePrices s l hl ha
      rw [h0] at hm
      cases hm
    exact ⟨activePrices_mem_inv s _ (sqlMin_mem _ hne),
           activePrices_mem_inv s _ (sqlMax_mem _ hne)⟩
  · intro h
    have h0 : activePrices s = [] := activePrices_nil s h
    refine ⟨?_, ?_, ?_⟩
    · show sqlMin (activePrices s) = 0
      rw [h0]
      rfl
    · show sqlMax (activePrices s) = 0
      rw [h0]
      rfl
    · show getAveragePrice s = 0
      simp [getAveragePrice, h0]
  · intro extra hx
    have he := activePrices_cons_of_inactive extra s hx
    refine ⟨?_, ?_, ?_⟩
    · show sqlMin (activePrices (extra :: s)) = sqlMin (activePrices s)
      rw [he]
    · show sqlMax (activePrices (extra :: s)) = sqlMax (activePrices s)
      rw [he]
    · show getAveragePrice (extra :: s) = getAveragePrice s
      unfold getAveragePrice
      rw [he]

/-- Witness for C7 on a one-listing store: its price attains both the
floor and ceiling figures of GetMarketStats. -/
theorem c7_price_stats_over_active_witness :
    (∃ l ∈ [({ id := 1, itemID := 7, nftContract := "0xCC", tokenID := "1",
               seller := "0xAA", price := "100", status := "active",
               txHash := "", listedAt := 0, soldAt := none, createdAt := 0,
               updatedAt := 0 } : Listing)],
      l.status = "active" ∧
      castNumeric l.price =
        (getMarketStats
          [{ id := 1, itemID := 7, nftContract := "0xCC", tokenID := "1",
             seller := "0xAA", price := "100", status := "active",
             txHash := "", listedAt := 0, soldAt := none, createdAt := 0,
             updatedAt := 0 }]).floorPrice) ∧
    (∃ l ∈ [({ id := 1, itemID := 7, nftContract := "0xCC", tokenID := "1",
               seller := "0xAA", price := "100", status := "active",
               txHash := "", listedAt := 0, soldAt := none, createdAt := 0,
               updatedAt := 0 } : Listing)],
      l.status = "active" ∧
      castNumeric l.price =
        (getMarketStats
          [{ id := 1, itemID := 7, nftContract := "0xCC", tokenID := "1",
             seller := "0xAA", price := "100", status := "active",
             txHash := "", listedAt := 0, soldAt := none, createdAt := 0,
             updatedAt := 0 }]).ceilingPrice) :=
  (c7_price_stats_over_active _).2.1 (by decide)

/-- C8 counterexample: with item 7 already in the store, the CRUD write
path rejects a chain-verified submission for item 7 with an error (plain
insert against the unique itemID index), while the chain-event path
treats the same itemId as a silent no-op — refuting the claim that both
paths give identical no-op outcomes for an existing itemId. -/
theorem c8_crud_errors_event_noop :
    (createListing
        { itemID := 7, nftContract := "0xCC", tokenID := "1",
          seller := "0xAA", price := "100", txHash := "0xabc" }
        chainSellerB 1 storeItem7.listings).toOption = none ∧
    stepOp 1 storeItem7 (.chain (.created ⟨7, "0xCC", 1, "0xAA", 100⟩)) =
      storeItem7 := by
  refine ⟨?_, ?_⟩ <;> decide

/-- C8 amended: on an itemId that already has a ListingRecord, the
chain-event path (CreateIfNotExists) is an idempotent no-op, but the CRUD
path (plain Create) returns an error and persists nothing; the two paths
do not share an upsert entry point. -/
theorem c8_existing_item_paths (req : CreateListingRequest)
    (chain : ChainState) (t t' : Nat) (s : List Listing)
    (ev : MarketItemCreatedEvent)
    (hev : ev.itemId % 2 ^ 64 = req.itemID)
    (l : Listing) (hl : l ∈ s) (hid : l.itemID = req.itemID) :
    (createListing req chain t s).toOption = none ∧
    updateFromEvent ev t' s = s := by
  have hdup : ∃ r ∈ s, r.itemID = req.itemID := ⟨l, hl, hid⟩
  constructor
  · unfold createListing
    cases hc : chain (int64OfUint64 req.itemID) with
    | none => rfl
    | some item =>
      by_cases hmm : hexToAddress item.nftContract ≠ hexToAddress req.nftContract
      · simp [hmm, Except.toOption]
      · simp only [hmm, if_false, ite_false]
        rw [listingCreate_of_dup (requestListing req t) s hdup]
        rfl
  · exact createIfNotExists_of_mem _ _
      ⟨l, hl, show l.itemID = (eventListing ev t').itemID by
        rw [hid, ← hev]; rfl⟩

/-- Witness for C8 amended at the concrete one-listing store for item 7. -/
theorem c8_existing_item_paths_witness :
    (createListing
        { itemID := 7, nftContract := "0xCC", tokenID := "1",
          seller := "0xAA", price := "100", txHash := "0xabc" }
        chainSellerB 1 storeItem7.listings).toOption = none ∧
    updateFromEvent ⟨7, "0xCC", 1, "0xAA", 100⟩ 2 storeItem7.listings =
      storeItem7.listings :=
  c8_existing_item_paths
    { itemID := 7, nftContract := "0xCC", tokenID := "1",
      seller := "0xAA", price := "100", txHash := "0xabc" }
    chainSellerB 1 2 storeItem7.listings ⟨7, "0xCC", 1, "0xAA", 100⟩
    (by decide)
    { id := 1, itemID := 7, nftContract := "0xCC", tokenID := "1",
      seller := "0xAA", price := "100", status := "active",
      txHash := "0xabc", listedAt := 0, soldAt := none,
      createdAt := 0, updatedAt := 0 }
    (by decide) (by decide)

/-- C9: CancelListing succeeds only when a row with the given primary key
exists, the supplied seller equals the stored seller, and the status is
"active"; each failing case returns the corresponding error (leaving the
store untouched, since no write happens), and on success exactly the
matching row changes, and only in its status (to "cancelled") and
updated-at timestamp. -/
theorem c9_cancel_listing_guards (id : Nat) (seller : String) (t : Nat)
    (s : List Listing) (hnd : (s.map (fun r => r.id)).Nodup) :
    ((∀ l ∈ s, l.id ≠ id) →
      cancelListing id seller t s = .error "failed to get listing") ∧
    (∀ l ∈ s, l.id = id → l.seller ≠ seller →
      cancelListing id seller t s = .error "unauthorized: not the seller") ∧
    (∀ l ∈ s, l.id = id → l.seller = seller → l.status ≠ "active" →
      cancelListing id seller t s = .error "listing is not active") ∧
    (∀ l ∈ s, l.id = id → l.seller = seller → l.status = "active" →
      ∃ s', cancelListing id seller t s = .ok s' ∧
        List.Forall₂ (fun r r' =>
          (r.id ≠ id → r' = r) ∧
          (r.id = id → r'.status = "cancelled" ∧ r'.updatedAt = t ∧
            r'.id = r.id ∧ r'.itemID = r.itemID ∧
            r'.nftContract = r.nftContract ∧ r'.tokenID = r.tokenID ∧
            r'.seller = r.seller ∧ r'.price = r.price ∧
            r'.txHash = r.txHash ∧ r'.listedAt = r.listedAt ∧
            r'.soldAt = r.soldAt ∧ r'.createdAt = r.createdAt)) s s') := by
  refine ⟨?_, ?_, ?_, ?_⟩
  · intro h
    have hg : getByID id s = none :=
      List.find?_eq_none.mpr (fun l hl => by simp [h l hl])
    rw [cancelListing, hg]
  · intro l hl hid hsel
    have hg : getByID id s = some l := hid ▸ getByID_of_nodup s hnd l hl
    rw [cancelListing, hg]
    simp [hsel]
  · intro l hl hid hsel hst
    have hg : getByID id s = some l := hid ▸ getByID_of_nodup s hnd l hl
    rw [cancelListing, hg]
    simp [hsel, hst]
  · intro l hl hid hsel hst
    have hg : getByID id s = some l := hid ▸ getByID_of_nodup s hnd l hl
    refine ⟨updateStatus id "cancelled" t s, ?_, ?_⟩
    · rw [cancelListing, hg]
      simp [hsel, hst]
    · apply forall2_map_self
      intro r
      constructor
      · intro hne
        simp [hne]
      · intro heq
        simp [heq]

/-- Witness for C9: cancelling the one active listing of its seller
succeeds and rewrites exactly that row's status. -/
theorem c9_cancel_listing_guards_witness :
    ∃ s',
      cancelListing 1 "0xAA" 5
        [{ id := 1, itemID := 7, nftContract := "0xCC", tokenID := "1",
           seller := "0xAA", price := "100", status := "active",
           txHash := "", listedAt := 0, soldAt := none, createdAt := 0,
           updatedAt := 0 }] = .ok s' ∧
      List.Forall₂ (fun r r' =>
        (r.id ≠ 1 → r' = r) ∧
        (r.id = 1 → r'.status = "cancelled" ∧ r'.updatedAt = 5 ∧
          r'.id = r.id ∧ r'.itemID = r.itemID ∧
          r'.nftContract = r.nftContract ∧ r'.tokenID = r.tokenID ∧
          r'.seller = r.seller ∧ r'.price = r.price ∧
          r'.txHash = r.txHash ∧ r'.listedAt = r.listedAt ∧
          r'.soldAt = r.soldAt ∧ r'.createdAt = r.createdAt))
        [{ id := 1, itemID := 7, nftContract := "0xCC", tokenID := "1",
           seller := "0xAA", price := "100", status := "active",
           txHash := "", listedAt := 0, soldAt := none, createdAt := 0,
           updatedAt := 0 }] s' :=
  (c9_cancel_listing_guards 1 "0xAA" 5
      [{ id := 1, itemID := 7, nftContract := "0xCC", tokenID := "1",
         seller := "0xAA", price := "100", status := "active",
         txHash := "", listedAt := 0, soldAt := none, createdAt := 0,
         updatedAt := 0 }]
      (by decide)).2.2.2
    { id := 1, itemID := 7, nftContract := "0xCC", tokenID := "1",
      seller := "0xAA", price := "100", status := "active",
      txHash := "", listedAt := 0, soldAt := none, createdAt := 0,
      updatedAt := 0 }
    (by decide) rfl rfl rfl

/-- C10: in GetMarketStats the sold-listings figure is the total count
minus the active count, so under the status invariant it counts both the
"sold" and the "cancelled" listings — cancelled listings inflate the
figure even though their status is not "sold". -/
theorem c10_sold_listings_counts_cancelled (s : List Listing)
    (h : ∀ l ∈ s,
      l.status = "active" ∨ l.status = "sold" ∨ l.status = "cancelled") :
    (getMarketStats s).soldListings =
      (s.filter (fun l => l.status = "sold")).length +
      (s.filter (fun l => l.status = "cancelled")).length := by
  show countTotalListings s - countActiveListings s = _
  revert h
  induction s with
  | nil => intro h; rfl
  | cons a tl ih =>
    intro h
    have ha := h a (List.mem_cons_self a tl)
    have htl := fun l hl => h l (List.mem_cons_of_mem a hl)
    have hle : countActiveListings tl ≤ countTotalListings tl :=
      List.length_filter_le _ _
    have ihtl := ih htl
    unfold countTotalListings countActiveListings at *
    rcases ha with h1 | h1 | h1 <;>
      simp [List.filter_cons, h1, List.length_cons] <;> omega

/-- Witness for C10: a store holding one cancelled and no sold listing
reports one sold listing. -/
theorem c10_sold_listings_counts_cancelled_witness :
    (getMarketStats
      [({ id := 1, itemID := 7, nftContract := "0xCC", tokenID := "1",
          seller := "0xAA", price := "100", status := "cancelled",
          txHash := "", listedAt := 0, soldAt := none, createdAt := 0,
          updatedAt := 0 } : Listing)]).soldListings =
      ([({ id := 1, itemID := 7, nftContract := "0xCC", tokenID := "1",
           seller := "0xAA", price := "100", status := "cancelled",
           txHash := "", listedAt := 0, soldAt := none, createdAt := 0,
           updatedAt := 0 } : Listing)].filter
        (fun l => l.status = "sold")).length +
      ([({ id := 1, itemID := 7, nftContract := "0xCC", tokenID := "1",
           seller := "0xAA", price := "100", status := "cancelled",
           txHash := "", listedAt := 0, soldAt := none, createdAt := 0,
           updatedAt := 0 } : Listing)].filter
        (fun l => l.status = "cancelled")).length :=
  c10_sold_listings_counts_cancelled _ (by decide)

end NFTMarketplace
